import Mathlib

/-!
Shallow embedding of the PR reviewer-assignment service (`main.go`) over an
explicit relational state.  Tables `teams`, `users`, `pull_requests` and
`pr_reviewers` become Lean lists; each HTTP handler becomes a state-passing
function returning the post state together with a tagged outcome.  Randomness
(`crypto/rand`) is modelled by an injected index source, and per-statement
write failures (the store rejecting an INSERT) by an injected failure oracle,
so that the non-transactional handlers show exactly the partial states the Go
code can leave behind.
-/

deriving instance DecidableEq for Except

namespace PRService

/-- PR lifecycle status, the CHECK constraint `status IN ('OPEN','MERGED')`. -/
inductive Status where
  | OPEN
  | MERGED
deriving DecidableEq, Repr

/-- A row of the `users` table. -/
structure User where
  user_id : String
  username : String
  team_name : String
  is_active : Bool
deriving DecidableEq, Repr

/-- A row of the `pull_requests` table. -/
structure PRRow where
  pull_request_id : String
  pull_request_name : String
  author_id : String
  status : Status
  created_at : Option Nat
  merged_at : Option Nat
deriving DecidableEq, Repr

/-- The database: `teams`, `users`, `pull_requests`, and the `pr_reviewers`
join table as `(pull_request_id, user_id)` pairs. -/
structure DBState where
  teams : List String
  users : List User
  prs : List PRRow
  pr_reviewers : List (String × String)
deriving DecidableEq, Repr

/-- The machine-readable error codes sent by `sendError`, plus `INTERNAL`
for the HTTP-500 paths. -/
inductive ApiError where
  | TEAM_EXISTS
  | NOT_FOUND
  | PR_EXISTS
  | PR_MERGED
  | NOT_ASSIGNED
  | NO_CANDIDATE
  | INTERNAL
deriving DecidableEq, Repr

/-- The JSON `pr` object returned by the handlers (Go struct `PullRequest`). -/
structure PullRequest where
  pull_request_id : String
  pull_request_name : String
  author_id : String
  status : Status
  assigned_reviewers : List String
  created_at : Option Nat
  merged_at : Option Nat
deriving DecidableEq, Repr

/-- Query `SELECT ... FROM users WHERE user_id = $1` (primary key: first match). -/
def findUser (users : List User) (uid : String) : Option User :=
  users.find? (fun u => u.user_id == uid)

/-- Query `SELECT ... FROM pull_requests WHERE pull_request_id = $1`. -/
def findPR (prs : List PRRow) (pid : String) : Option PRRow :=
  prs.find? (fun p => p.pull_request_id == pid)

/-- Query `SELECT EXISTS(SELECT 1 FROM teams WHERE team_name = $1)`. -/
def teamExists (s : DBState) (t : String) : Bool :=
  s.teams.contains t

/-- Query `SELECT EXISTS(SELECT 1 FROM pull_requests WHERE pull_request_id = $1)`. -/
def prExists (prs : List PRRow) (pid : String) : Bool :=
  prs.any (fun p => p.pull_request_id == pid)

/-- Function `getCurrentReviewers`: user ids linked to the PR in `pr_reviewers`. -/
def getCurrentReviewers (links : List (String × String)) (pid : String) : List String :=
  (links.filter (fun l => l.1 == pid)).map (·.2)

/-- Function `getActiveTeamMembers`: active users of `teamName` whose id differs from
`excludeUserID`. -/
def getActiveTeamMembers (users : List User) (teamName excludeUserID : String) : List String :=
  (users.filter (fun u => u.team_name == teamName && u.is_active && u.user_id != excludeUserID)).map
    (·.user_id)

/-- Function `getActiveTeamMembersExcluding`: active users of `teamName` not in
`excludeUserIDs`; the Go code special-cases the empty exclusion list. -/
def getActiveTeamMembersExcluding (users : List User) (teamName : String)
    (excludeUserIDs : List String) : List String :=
  if excludeUserIDs.isEmpty then
    (users.filter (fun u => u.team_name == teamName && u.is_active)).map (·.user_id)
  else
    (users.filter
        (fun u => u.team_name == teamName && u.is_active && !(excludeUserIDs.contains u.user_id))).map
      (·.user_id)

/-- One Fisher–Yates swap `shuffled[i], shuffled[j] = shuffled[j], shuffled[i]`. -/
def swapIdx (l : List String) (i j : Nat) : List String :=
  match l[i]?, l[j]? with
  | some x, some y => (l.set i y).set j x
  | _, _ => l

/-- The Fisher–Yates loop of `assignReviewers`: counts `i` down from
`l.length - 1` to `1`, swapping index `i` with `r i % (i+1)` — the model of
`rand.Int(rand.Reader, big.NewInt(int64(i+1)))` for the injected source `r`. -/
def fyLoop (r : Nat → Nat) : Nat → List String → List String
  | 0, l => l
  | i + 1, l => fyLoop r i (swapIdx l (i + 1) (r (i + 1) % (i + 2)))

/-- Function `assignReviewers`: all candidates when there are at most `maxCount`,
otherwise the first `maxCount` of a Fisher–Yates shuffle. -/
def assignReviewers (r : Nat → Nat) (candidates : List String) (maxCount : Nat) : List String :=
  if candidates.length ≤ maxCount then candidates
  else (fyLoop r (candidates.length - 1) candidates).take maxCount

/-- Function `selectRandomCandidate`: errors on an empty list, otherwise returns the
element at the random index (`rand.Int` with bound `len(candidates)`,
modelled by `r % candidates.length`). -/
def selectRandomCandidate (r : Nat) (candidates : List String) : Except String String :=
  if h : candidates.length = 0 then .error "no candidates available"
  else .ok (candidates.get ⟨r % candidates.length, Nat.mod_lt r (Nat.pos_of_ne_zero h)⟩)

/-- Function `getPullRequest`: the PR row joined with its current reviewers.  (The Go
function returns a zero-valued struct when the row is absent; every call site
runs after an existence check, so the model returns `Option`.) -/
def getPullRequest (s : DBState) (pid : String) : Option PullRequest :=
  (findPR s.prs pid).map fun row =>
    { pull_request_id := row.pull_request_id
      pull_request_name := row.pull_request_name
      author_id := row.author_id
      status := row.status
      assigned_reviewers := getCurrentReviewers s.pr_reviewers pid
      created_at := row.created_at
      merged_at := row.merged_at }

/-- The reviewer-insert loop of `pullRequestCreateHandler`: each
`INSERT INTO pr_reviewers` is an independent statement; if the store rejects
one (`fail rid`), the handler returns 500 at once, keeping every link already
inserted — there is no surrounding transaction to roll back. -/
def insertReviewersLoop (fail : String → Bool) (pid : String) :
    DBState → List String → DBState × Bool
  | s, [] => (s, true)
  | s, rid :: rest =>
    if fail rid then (s, false)
    else
      insertReviewersLoop fail pid
        { s with pr_reviewers := s.pr_reviewers ++ [(pid, rid)] } rest

/-- Handler `pullRequestCreateHandler`: duplicate-id check, author lookup, PR row
insert, candidate computation, random choice of up to two reviewers, and the
per-reviewer inserts. -/
def pullRequestCreateHandler (r : Nat → Nat) (fail : String → Bool) (now : Nat)
    (s : DBState) (prId prName authorId : String) :
    DBState × Except ApiError PullRequest :=
  if prExists s.prs prId then (s, .error .PR_EXISTS)
  else
    match findUser s.users authorId with
    | none => (s, .error .NOT_FOUND)
    | some author =>
      let s1 : DBState :=
        { s with prs := s.prs ++ [⟨prId, prName, authorId, .OPEN, some now, none⟩] }
      let reviewers := getActiveTeamMembers s1.users author.team_name authorId
      let assigned := assignReviewers r reviewers 2
      match insertReviewersLoop fail prId s1 assigned with
      | (s2, false) => (s2, .error .INTERNAL)
      | (s2, true) =>
        (s2, .ok
          { pull_request_id := prId
            pull_request_name := prName
            author_id := authorId
            status := .OPEN
            assigned_reviewers := assigned
            created_at := some now
            merged_at := none })

/-- Handler `pullRequestMergeHandler`: not-found check, idempotent short-circuit when
already MERGED, otherwise a single UPDATE stamping status and `merged_at`. -/
def pullRequestMergeHandler (now : Nat) (s : DBState) (prId : String) :
    DBState × Except ApiError (Option PullRequest) :=
  match findPR s.prs prId with
  | none => (s, .error .NOT_FOUND)
  | some row =>
    if row.status = .MERGED then (s, .ok (getPullRequest s prId))
    else
      let s2 : DBState :=
        { s with prs := s.prs.map fun p =>
            if p.pull_request_id == prId then { p with status := .MERGED, merged_at := some now }
            else p }
      (s2, .ok (getPullRequest s2 prId))

/-- Handler `pullRequestReassignHandler`: status checks, assignment check, candidate
set scoped to the outgoing reviewer's team minus current reviewers and the
author, then a single UPDATE replacing the link. -/
def pullRequestReassignHandler (rsel : Nat) (s : DBState) (prId oldUserId : String) :
    DBState × Except ApiError (Option PullRequest × String) :=
  match findPR s.prs prId with
  | none => (s, .error .NOT_FOUND)
  | some row =>
    if row.status = .MERGED then (s, .error .PR_MERGED)
    else if !(s.pr_reviewers.contains (prId, oldUserId)) then (s, .error .NOT_ASSIGNED)
    else
      match findUser s.users oldUserId with
      | none => (s, .error .INTERNAL)
      | some oldReviewer =>
        let authorID := row.author_id
        let currentReviewers := getCurrentReviewers s.pr_reviewers prId
        let candidates :=
          getActiveTeamMembersExcluding s.users oldReviewer.team_name
            (currentReviewers ++ [authorID])
        if candidates.length = 0 then (s, .error .NO_CANDIDATE)
        else
          match selectRandomCandidate rsel candidates with
          | .error _ => (s, .error .INTERNAL)
          | .ok newReviewerID =>
            let s2 : DBState :=
              { s with pr_reviewers := s.pr_reviewers.map fun l =>
                  if l = (prId, oldUserId) then (prId, newReviewerID) else l }
            (s2, .ok (getPullRequest s2 prId, newReviewerID))

/-- One entry of the `reassignments` array in the deactivation response. -/
structure Reassignment where
  pr_id : String
  old_reviewer : String
  new_reviewer : String
deriving DecidableEq, Repr

/-- The deactivation response body. -/
structure DeactivateResult where
  deactivated_count : Nat
  reassignments : List Reassignment
  failed_reassignments : List String
deriving DecidableEq, Repr

/-- The per-user query of the cascade: OPEN PRs on which `userID` is a
reviewer, as `(pull_request_id, author_id)` pairs. -/
def openPRsReviewedBy (s : DBState) (userID : String) : List (String × String) :=
  (s.prs.filter
      (fun p => p.status = Status.OPEN && s.pr_reviewers.contains (p.pull_request_id, userID))).map
    (fun p => (p.pull_request_id, p.author_id))

/-- Handler `teamDeactivateHandler`: after the team-existence check it
snapshots the active members inside a transaction and walks their OPEN-PR
review assignments.  For the first such assignment it reaches, the
replacement query `... AND user_id != ALL($2) LIMIT 1` is executed with
`excludeList` as a raw Go `[]string`; the driver is `lib/pq` and the code
never wraps the slice in `pq.Array`, so `database/sql` rejects the argument
("unsupported type []string, a slice of string") — a non-`ErrNoRows` error.
The handler then answers HTTP 500 and the deferred `tx.Rollback()` undoes the
transaction, before any reviewer link was written (the reads preceding the
query mutate nothing), so both the replace and the delete branches of the
cascade are unreachable.  A deactivation therefore commits exactly when no
snapshotted user reviews any OPEN PR; its only write is
`UPDATE users SET is_active = false WHERE team_name = $1`, whose
rows-affected — every member of the team, active or not — is the reported
count, and both result lists are empty. -/
def teamDeactivateHandler (s : DBState) (teamName : String) :
    DBState × Except ApiError DeactivateResult :=
  if !(teamExists s teamName) then (s, .error .NOT_FOUND)
  else
    let usersToDeactivate :=
      (s.users.filter (fun u => u.team_name == teamName && u.is_active)).map (·.user_id)
    if usersToDeactivate.any (fun uid => !(openPRsReviewedBy s uid).isEmpty) then
      (s, .error .INTERNAL)
    else
      let deactivatedCount := (s.users.filter (fun u => u.team_name == teamName)).length
      let s2 : DBState :=
        { s with users := s.users.map fun u =>
            if u.team_name == teamName then { u with is_active := false } else u }
      (s2, .ok ⟨deactivatedCount, [], []⟩)

/-! ## Invariants and well-formedness -/

/-- The spec's author invariant: no PR's author is among its reviewers. -/
def authorInv (s : DBState) : Prop :=
  ∀ p ∈ s.prs, ∀ l ∈ s.pr_reviewers, l.1 = p.pull_request_id → l.2 ≠ p.author_id

/-- Schema facts the store enforces: `pull_request_id` is the primary key of
`pull_requests`, and `pr_reviewers.pull_request_id` is a foreign key. -/
def WF (s : DBState) : Prop :=
  (s.prs.map (·.pull_request_id)).Nodup ∧
  ∀ l ∈ s.pr_reviewers, ∃ p ∈ s.prs, p.pull_request_id = l.1

instance (s : DBState) : Decidable (authorInv s) := by
  unfold authorInv
  infer_instance

instance (s : DBState) : Decidable (WF s) := by
  unfold WF
  exact instDecidableAnd

/-! ## Concrete example states -/

/-- Example database: team `t` = {b, c} (both active), team `x` = {a};
`p1` is OPEN, authored by `a`, reviewed by `c`; `p2` is MERGED, authored by
`a`, reviewed by `b`. -/
def exDB : DBState :=
  { teams := ["t", "x"]
    users :=
      [⟨"a", "Ann", "x", true⟩, ⟨"b", "Bob", "t", true⟩, ⟨"c", "Cid", "t", true⟩]
    prs :=
      [⟨"p1", "feat", "a", .OPEN, some 0, none⟩, ⟨"p2", "fix", "a", .MERGED, some 0, some 5⟩]
    pr_reviewers := [("p1", "c"), ("p2", "b")] }

/-- Example for the reassignment exhaustion path: `c` is the only active
member of team `t`, and is the outgoing reviewer. -/
def exDB9 : DBState :=
  { teams := ["t", "x"]
    users :=
      [⟨"a", "Ann", "x", true⟩, ⟨"b", "Bob", "t", false⟩, ⟨"c", "Cid", "t", true⟩]
    prs := [⟨"p1", "feat", "a", .OPEN, some 0, none⟩]
    pr_reviewers := [("p1", "c")] }

/-- Example of a committing deactivation with PR data: the snapshotted
members `b` and `c` of team `t` review no OPEN PR (`b` reviews only the
MERGED `p2`; the OPEN `p1` is reviewed by `a` of team `x`), so the cascade
never reaches its always-failing replacement query and the handler commits. -/
def exDB1 : DBState :=
  { teams := ["t", "x"]
    users :=
      [⟨"a", "Ann", "x", true⟩, ⟨"b", "Bob", "t", true⟩, ⟨"c", "Cid", "t", true⟩]
    prs :=
      [⟨"p1", "feat", "c", .OPEN, some 0, none⟩, ⟨"p2", "fix", "a", .MERGED, some 0, some 5⟩]
    pr_reviewers := [("p1", "a"), ("p2", "b")] }

/-- Example for the deactivation count: team `t` has one active and one
already-inactive member. -/
def exDB3 : DBState :=
  { teams := ["t"]
    users := [⟨"u1", "Ann", "t", true⟩, ⟨"u2", "Bob", "t", false⟩]
    prs := []
    pr_reviewers := [] }

/-- A constant random source for witnesses. -/
def exR : Nat → Nat := fun _ => 0

/-- A failure oracle that never fails. -/
def exNoFail : String → Bool := fun _ => false

/-- A failure oracle under which the `INSERT INTO pr_reviewers` for user `c`
is rejected by the store. -/
def exFailC : String → Bool := fun rid => rid == "c"

/-! ## Basic lemmas about the candidate and shuffle utilities -/

theorem swapIdx_length (l : List String) (i j : Nat) : (swapIdx l i j).length = l.length := by
  unfold swapIdx
  cases h1 : l[i]? <;> cases h2 : l[j]? <;> simp [List.length_set]

theorem swapIdx_subset (l : List String) (i j : Nat) : ∀ x ∈ swapIdx l i j, x ∈ l := by
  intro x hx
  unfold swapIdx at hx
  cases h1 : l[i]? with
  | none => rw [h1] at hx; exact hx
  | some a =>
    cases h2 : l[j]? with
    | none => rw [h1, h2] at hx; exact hx
    | some b =>
      rw [h1, h2] at hx
      rcases List.mem_or_eq_of_mem_set hx with hx2 | hx2
      · rcases List.mem_or_eq_of_mem_set hx2 with hx3 | hx3
        · exact hx3
        · exact hx3 ▸ List.getElem?_mem h2
      · exact hx2 ▸ List.getElem?_mem h1

theorem fyLoop_length (r : Nat → Nat) :
    ∀ (n : Nat) (l : List String), (fyLoop r n l).length = l.length
  | 0, _ => rfl
  | n + 1, l => by
    rw [fyLoop, fyLoop_length r n, swapIdx_length]

theorem fyLoop_subset (r : Nat → Nat) :
    ∀ (n : Nat) (l : List String), ∀ x ∈ fyLoop r n l, x ∈ l
  | 0, _, _, hx => hx
  | n + 1, l, x, hx => by
    rw [fyLoop] at hx
    exact swapIdx_subset _ _ _ x (fyLoop_subset r n _ x hx)

theorem assignReviewers_length (r : Nat → Nat) (c : List String) (m : Nat) :
    (assignReviewers r c m).length = min m c.length := by
  unfold assignReviewers
  by_cases h : c.length ≤ m
  · rw [if_pos h, Nat.min_eq_right h]
  · rw [if_neg h, List.length_take, fyLoop_length]

theorem assignReviewers_subset (r : Nat → Nat) (c : List String) (m : Nat) :
    ∀ x ∈ assignReviewers r c m, x ∈ c := by
  intro x hx
  unfold assignReviewers at hx
  by_cases h : c.length ≤ m
  · rw [if_pos h] at hx; exact hx
  · rw [if_neg h] at hx
    exact fyLoop_subset r _ c x (List.take_subset m _ hx)

theorem selectRandomCandidate_ok (r : Nat) (c : List String) (h : c ≠ []) :
    ∃ x, selectRandomCandidate r c = .ok x ∧ x ∈ c := by
  unfold selectRandomCandidate
  have hl : ¬c.length = 0 := by simpa using h
  rw [dif_neg hl]
  exact ⟨_, rfl, c.get_mem _ _⟩

theorem selectRandomCandidate_mem (r : Nat) (c : List String) (x : String)
    (h : selectRandomCandidate r c = .ok x) : x ∈ c := by
  unfold selectRandomCandidate at h
  by_cases hl : c.length = 0
  · rw [dif_pos hl] at h; exact absurd h (by simp)
  · rw [dif_neg hl] at h
    cases h
    exact c.get_mem _ _

theorem prExists_iff (prs : List PRRow) (pid : String) :
    prExists prs pid = true ↔ ∃ p ∈ prs, p.pull_request_id = pid := by
  unfold prExists
  simp [List.any_eq_true]

theorem mem_getActiveTeamMembers (users : List User) (t ex x : String)
    (hx : x ∈ getActiveTeamMembers users t ex) :
    ∃ u ∈ users, u.user_id = x ∧ u.team_name = t ∧ u.is_active = true ∧ x ≠ ex := by
  unfold getActiveTeamMembers at hx
  rcases List.mem_map.mp hx with ⟨u, hu, rfl⟩
  rcases List.mem_filter.mp hu with ⟨hu1, hu2⟩
  simp only [Bool.and_eq_true, beq_iff_eq, bne_iff_ne, ne_eq] at hu2
  exact ⟨u, hu1, rfl, hu2.1.1, hu2.1.2, hu2.2⟩

theorem mem_getActiveTeamMembersExcluding (users : List User) (t : String)
    (excl : List String) (x : String) (hne : excl ≠ [])
    (hx : x ∈ getActiveTeamMembersExcluding users t excl) :
    ∃ u ∈ users, u.user_id = x ∧ u.team_name = t ∧ u.is_active = true ∧ x ∉ excl := by
  unfold getActiveTeamMembersExcluding at hx
  rw [if_neg (by simpa [List.isEmpty_iff] using hne)] at hx
  rcases List.mem_map.mp hx with ⟨u, hu, rfl⟩
  rcases List.mem_filter.mp hu with ⟨hu1, hu2⟩
  simp only [Bool.and_eq_true, beq_iff_eq, Bool.not_eq_true'] at hu2
  refine ⟨u, hu1, rfl, hu2.1.1, hu2.1.2, ?_⟩
  intro hmem
  have hc : excl.contains u.user_id = true := List.elem_iff.mpr hmem
  rw [hu2.2] at hc
  exact Bool.false_ne_true hc

theorem findPR_spec (prs : List PRRow) (pid : String) (row : PRRow)
    (h : findPR prs pid = some row) : row ∈ prs ∧ row.pull_request_id = pid := by
  refine ⟨List.mem_of_find?_eq_some h, ?_⟩
  have := List.find?_some h
  simpa using this

theorem findUser_spec (users : List User) (uid : String) (u : User)
    (h : findUser users uid = some u) : u ∈ users ∧ u.user_id = uid := by
  refine ⟨List.mem_of_find?_eq_some h, ?_⟩
  have := List.find?_some h
  simpa using this

/-- With unique PR ids, any row in the table carrying the id found by
`findPR` is the found row itself. -/
theorem findPR_unique (prs : List PRRow) (pid : String) (row p : PRRow)
    (hnd : (prs.map (·.pull_request_id)).Nodup)
    (h : findPR prs pid = some row) (hp : p ∈ prs) (hid : p.pull_request_id = pid) :
    p = row := by
  rcases findPR_spec prs pid row h with ⟨hrow, hrid⟩
  exact List.inj_on_of_nodup_map hnd hp hrow (by rw [hid, hrid])

/-! ## Lemmas about the reviewer-insert loop -/

theorem insertReviewersLoop_prs (fail : String → Bool) (pid : String) :
    ∀ (l : List String) (s : DBState), (insertReviewersLoop fail pid s l).1.prs = s.prs
  | [], _ => rfl
  | rid :: rest, s => by
    simp only [insertReviewersLoop]
    by_cases h : fail rid
    · rw [if_pos h]
    · rw [if_neg h, insertReviewersLoop_prs fail pid rest]

theorem insertReviewersLoop_users (fail : String → Bool) (pid : String) :
    ∀ (l : List String) (s : DBState), (insertReviewersLoop fail pid s l).1.users = s.users
  | [], _ => rfl
  | rid :: rest, s => by
    simp only [insertReviewersLoop]
    by_cases h : fail rid
    · rw [if_pos h]
    · rw [if_neg h, insertReviewersLoop_users fail pid rest]

theorem insertReviewersLoop_links (fail : String → Bool) (pid : String) :
    ∀ (l : List String) (s : DBState) (x : String × String),
      x ∈ (insertReviewersLoop fail pid s l).1.pr_reviewers →
      x ∈ s.pr_reviewers ∨ (x.1 = pid ∧ x.2 ∈ l)
  | [], _, _, hx => Or.inl hx
  | rid :: rest, s, x, hx => by
    simp only [insertReviewersLoop] at hx
    by_cases h : fail rid
    · rw [if_pos h] at hx
      exact Or.inl hx
    · rw [if_neg h] at hx
      rcases insertReviewersLoop_links fail pid rest _ x hx with hx2 | hx2
      · rcases List.mem_append.mp hx2 with h3 | h3
        · exact Or.inl h3
        · have h4 := List.mem_singleton.mp h3
          exact Or.inr ⟨by rw [h4], by rw [h4]; exact List.mem_cons_self _ _⟩
      · exact Or.inr ⟨hx2.1, List.mem_cons_of_mem _ hx2.2⟩

/-! ## Merge lemma: `findPR` after the status UPDATE -/

theorem findPR_merge_map (prs : List PRRow) (prId : String) (now : Nat) (row : PRRow)
    (h : findPR prs prId = some row) :
    findPR
        (prs.map fun p =>
          if p.pull_request_id == prId then { p with status := Status.MERGED, merged_at := some now }
          else p)
        prId
      = some { row with status := Status.MERGED, merged_at := some now } := by
  induction prs with
  | nil => exact absurd h (by simp [findPR])
  | cons a l ih =>
    unfold findPR at h ⊢
    rw [List.map_cons]
    by_cases ha : (a.pull_request_id == prId) = true
    · rw [List.find?_cons_of_pos (p := fun q : PRRow => q.pull_request_id == prId) _ ha] at h
      cases h
      rw [if_pos ha]
      exact List.find?_cons_of_pos (p := fun q : PRRow => q.pull_request_id == prId) _ (by simpa using ha)
    · rw [List.find?_cons_of_neg (p := fun q : PRRow => q.pull_request_id == prId) _ ha] at h
      rw [if_neg ha, List.find?_cons_of_neg (p := fun q : PRRow => q.pull_request_id == prId) _ ha]
      exact ih h

/-! ## Claim theorems: creation (C4) and merge (C6) -/

/-- Claim C4: for every successful PR creation, the number of assigned reviewers
equals `min 2 (active members of the author's team excluding the author)`. -/
theorem C4_create_reviewer_count
    (r : Nat → Nat) (fail : String → Bool) (now : Nat) (s : DBState)
    (prId prName authorId : String) (s2 : DBState) (pr : PullRequest)
    (author : User) (hA : findUser s.users authorId = some author)
    (hok : pullRequestCreateHandler r fail now s prId prName authorId = (s2, .ok pr)) :
    pr.assigned_reviewers.length
      = min 2 (getActiveTeamMembers s.users author.team_name authorId).length := by
  unfold pullRequestCreateHandler at hok
  by_cases hex : prExists s.prs prId = true
  · rw [if_pos hex] at hok
    exact absurd (congrArg Prod.snd hok) (by simp)
  · rw [if_neg hex, hA] at hok
    simp only at hok
    split at hok
    · exact absurd (congrArg Prod.snd hok) (by simp)
    · have h2 := congrArg Prod.snd hok
      rw [Except.ok.injEq] at h2
      rw [← h2]
      exact assignReviewers_length r _ 2

/-- Claim C6: merging is idempotent — on an already-MERGED PR the handler leaves
the state untouched, reports success, and returns the stored merge timestamp;
consequently a second merge call returns exactly the first call's result. -/
theorem C6_merge_idempotent (now now2 : Nat) (s : DBState) (prId : String) :
    (∀ row : PRRow, findPR s.prs prId = some row → row.status = Status.MERGED →
        pullRequestMergeHandler now s prId = (s, .ok (getPullRequest s prId)) ∧
        ∃ pr0, getPullRequest s prId = some pr0 ∧ pr0.merged_at = row.merged_at ∧
          pr0.status = Status.MERGED) ∧
    (∀ (s2 : DBState) (v : Option PullRequest),
        pullRequestMergeHandler now s prId = (s2, .ok v) →
        pullRequestMergeHandler now2 s2 prId = (s2, .ok v)) := by
  constructor
  · intro row hrow hm
    constructor
    · simp only [pullRequestMergeHandler, hrow, if_pos hm]
    · refine ⟨⟨row.pull_request_id, row.pull_request_name, row.author_id, row.status,
          getCurrentReviewers s.pr_reviewers prId, row.created_at, row.merged_at⟩, ?_, rfl, hm⟩
      unfold getPullRequest
      rw [hrow]
      rfl
  · intro s2 v hok
    rcases hfind : findPR s.prs prId with _ | row
    · simp only [pullRequestMergeHandler, hfind] at hok
      exact absurd (congrArg Prod.snd hok) (by simp)
    · by_cases hm : row.status = Status.MERGED
      · simp only [pullRequestMergeHandler, hfind, if_pos hm] at hok
        injection hok with h1 h2
        subst h1
        injection h2 with h3
        subst h3
        simp only [pullRequestMergeHandler, hfind, if_pos hm]
      · simp only [pullRequestMergeHandler, hfind, if_neg hm] at hok
        injection hok with h1 h2
        subst h1
        injection h2 with h3
        subst h3
        have hfind2 := findPR_merge_map s.prs prId now row hfind
        simp only [pullRequestMergeHandler]
        rw [show findPR
            ({ teams := s.teams, users := s.users,
               prs := s.prs.map fun p =>
                 if p.pull_request_id == prId then
                   { p with status := Status.MERGED, merged_at := some now }
                 else p,
               pr_reviewers := s.pr_reviewers } : DBState).prs prId
            = some { row with status := Status.MERGED, merged_at := some now } from hfind2]
        rfl

theorem mem_getCurrentReviewers (links : List (String × String)) (pid uid : String)
    (h : (pid, uid) ∈ links) : uid ∈ getCurrentReviewers links pid := by
  unfold getCurrentReviewers
  exact List.mem_map.mpr ⟨(pid, uid), List.mem_filter.mpr ⟨h, by simp⟩, rfl⟩

/-! ## Claim theorems: reassignment (C7, C8, C9, C10) -/

/-- Claim C7: a reassignment request on a MERGED PR fails with `PR_MERGED` and
leaves the database exactly as it was. -/
theorem C7_reassign_merged_no_mutation (rsel : Nat) (s : DBState) (prId oldUserId : String)
    (row : PRRow) (h : findPR s.prs prId = some row) (hm : row.status = Status.MERGED) :
    pullRequestReassignHandler rsel s prId oldUserId = (s, .error .PR_MERGED) := by
  simp only [pullRequestReassignHandler, h, if_pos hm]

/-- Claim C9: a reassignment whose eligible candidate set is empty fails with
`NO_CANDIDATE` and leaves the database exactly as it was. -/
theorem C9_reassign_no_candidate_no_mutation (rsel : Nat) (s : DBState)
    (prId oldUserId : String) (row : PRRow) (oldReviewer : User)
    (h : findPR s.prs prId = some row) (hm : row.status = Status.OPEN)
    (ha : (prId, oldUserId) ∈ s.pr_reviewers)
    (hu : findUser s.users oldUserId = some oldReviewer)
    (hc : getActiveTeamMembersExcluding s.users oldReviewer.team_name
        (getCurrentReviewers s.pr_reviewers prId ++ [row.author_id]) = []) :
    pullRequestReassignHandler rsel s prId oldUserId = (s, .error .NO_CANDIDATE) := by
  have hm2 : ¬row.status = Status.MERGED := by rw [hm]; exact fun hx => Status.noConfusion hx
  have hcontains : s.pr_reviewers.contains (prId, oldUserId) = true := List.elem_iff.mpr ha
  simp [pullRequestReassignHandler, h, hm2, hcontains, hu, hc, ha]

/-- Claim C8: every successful reassignment picks a replacement that is an
active member of the outgoing reviewer's team, is not the PR's author, is not
any currently assigned reviewer, and differs from the outgoing reviewer. -/
theorem C8_reassign_replacement_properties (rsel : Nat) (s : DBState)
    (prId oldUserId : String) (s2 : DBState) (v : Option PullRequest) (newId : String)
    (hok : pullRequestReassignHandler rsel s prId oldUserId = (s2, .ok (v, newId))) :
    ∃ row oldReviewer, findPR s.prs prId = some row ∧
      findUser s.users oldUserId = some oldReviewer ∧
      (∃ u ∈ s.users, u.user_id = newId ∧ u.team_name = oldReviewer.team_name ∧
        u.is_active = true) ∧
      newId ≠ row.author_id ∧ newId ∉ getCurrentReviewers s.pr_reviewers prId ∧
      newId ≠ oldUserId := by
  rcases hfind : findPR s.prs prId with _ | row
  · simp only [pullRequestReassignHandler, hfind] at hok
    exact absurd (congrArg Prod.snd hok) (by simp)
  · by_cases hm : row.status = Status.MERGED
    · simp only [pullRequestReassignHandler, hfind, if_pos hm] at hok
      exact absurd (congrArg Prod.snd hok) (by simp)
    · by_cases hna : (!(s.pr_reviewers.contains (prId, oldUserId))) = true
      · simp only [pullRequestReassignHandler, hfind, if_neg hm, if_pos hna] at hok
        exact absurd (congrArg Prod.snd hok) (by simp)
      · rcases hu : findUser s.users oldUserId with _ | oldReviewer
        · simp only [pullRequestReassignHandler, hfind, if_neg hm, if_neg hna, hu] at hok
          exact absurd (congrArg Prod.snd hok) (by simp)
        · by_cases hlen : (getActiveTeamMembersExcluding s.users oldReviewer.team_name
              (getCurrentReviewers s.pr_reviewers prId ++ [row.author_id])).length = 0
          · simp only [pullRequestReassignHandler, hfind, if_neg hm, if_neg hna, hu,
              if_pos hlen] at hok
            exact absurd (congrArg Prod.snd hok) (by simp)
          · rcases hsel : selectRandomCandidate rsel
                (getActiveTeamMembersExcluding s.users oldReviewer.team_name
                  (getCurrentReviewers s.pr_reviewers prId ++ [row.author_id])) with e | x
            · have ⟨y, hy, _⟩ := selectRandomCandidate_ok rsel
                (getActiveTeamMembersExcluding s.users oldReviewer.team_name
                  (getCurrentReviewers s.pr_reviewers prId ++ [row.author_id]))
                (fun hnil => hlen (by rw [hnil]; rfl))
              rw [hsel] at hy
              exact absurd hy (by simp)
            · simp only [pullRequestReassignHandler, hfind, if_neg hm, if_neg hna, hu,
                if_neg hlen, hsel] at hok
              have hx : x = newId := by
                have h2 := congrArg Prod.snd hok
                rw [Except.ok.injEq] at h2
                exact congrArg Prod.snd h2
              have hmem := selectRandomCandidate_mem rsel _ x hsel
              have hchar := mem_getActiveTeamMembersExcluding s.users oldReviewer.team_name
                (getCurrentReviewers s.pr_reviewers prId ++ [row.author_id]) x (by simp) hmem
              rcases hchar with ⟨u, hu2, hid, hteam, hact, hnotmem⟩
              have hnotcur : x ∉ getCurrentReviewers s.pr_reviewers prId :=
                fun hx2 => hnotmem (List.mem_append.mpr (Or.inl hx2))
              have hnotauthor : x ≠ row.author_id := fun hx2 =>
                hnotmem (List.mem_append.mpr (Or.inr (by rw [hx2]; exact List.mem_singleton_self _)))
              have holdcur : oldUserId ∈ getCurrentReviewers s.pr_reviewers prId := by
                refine mem_getCurrentReviewers s.pr_reviewers prId oldUserId ?_
                have hct : s.pr_reviewers.contains (prId, oldUserId) = true := by
                  cases hb : s.pr_reviewers.contains (prId, oldUserId)
                  · exact absurd (by rw [hb]; rfl) hna
                  · rfl
                exact List.elem_iff.mp hct
              subst hx
              exact ⟨row, oldReviewer, rfl, rfl,
                ⟨u, hu2, hid, hteam, hact⟩, hnotauthor, hnotcur,
                fun hx2 => hnotcur (hx2 ▸ holdcur)⟩

/-- Claim C10: on a non-empty candidate list `selectRandomCandidate` returns a
member of the list, and at its call site in the reassignment handler the
selection error branch is unreachable — given the outgoing reviewer exists,
the handler never reports the internal selection failure. -/
theorem C10_select_total_on_nonempty :
    (∀ (r : Nat) (c : List String), c ≠ [] →
        ∃ x, selectRandomCandidate r c = .ok x ∧ x ∈ c) ∧
    ∀ (rsel : Nat) (s : DBState) (prId oldUserId : String) (u : User),
      findUser s.users oldUserId = some u →
      (pullRequestReassignHandler rsel s prId oldUserId).2 ≠ Except.error ApiError.INTERNAL := by
  refine ⟨selectRandomCandidate_ok, ?_⟩
  intro rsel s prId oldUserId u hu
  rcases hfind : findPR s.prs prId with _ | row
  · simp [pullRequestReassignHandler, hfind]
  · by_cases hm : row.status = Status.MERGED
    · simp [pullRequestReassignHandler, hfind, if_pos hm]
    · by_cases hna : (!(s.pr_reviewers.contains (prId, oldUserId))) = true
      · simp only [pullRequestReassignHandler, hfind, if_neg hm, if_pos hna]
        exact fun hx => ApiError.noConfusion (Except.error.inj hx)
      · by_cases hlen : (getActiveTeamMembersExcluding s.users u.team_name
            (getCurrentReviewers s.pr_reviewers prId ++ [row.author_id])).length = 0
        · simp only [pullRequestReassignHandler, hfind, if_neg hm, if_neg hna, hu, if_pos hlen]
          exact fun hx => ApiError.noConfusion (Except.error.inj hx)
        · rcases hsel : selectRandomCandidate rsel
              (getActiveTeamMembersExcluding s.users u.team_name
                (getCurrentReviewers s.pr_reviewers prId ++ [row.author_id])) with e | x
          · have ⟨y, hy, _⟩ := selectRandomCandidate_ok rsel
              (getActiveTeamMembersExcluding s.users u.team_name
                (getCurrentReviewers s.pr_reviewers prId ++ [row.author_id]))
              (fun hnil => hlen (by rw [hnil]; rfl))
            rw [hsel] at hy
            exact absurd hy (by simp)
          · simp only [pullRequestReassignHandler, hfind, if_neg hm, if_neg hna, hu,
              if_neg hlen, hsel]
            exact fun hx => Except.noConfusion hx

/-! ## Claim theorems: mass deactivation (C1, C3) and creation atomicity (C2) -/

/-- Claim C1: for every mass team deactivation that commits, no user
deactivated by the operation (a snapshotted active member of the team)
remains an assigned reviewer on any OPEN PR at commit.  The handler reaches
its commit only when no snapshotted user had any OPEN-PR review assignment —
the replacement query's driver error (raw `[]string` argument) aborts and
rolls back every other run — and the commit changes no PR or reviewer link,
so the invariant holds on the committed state. -/
theorem C1_no_deactivated_reviewer_on_open_pr (s : DBState) (teamName : String)
    (s2 : DBState) (d : DeactivateResult)
    (hok : teamDeactivateHandler s teamName = (s2, .ok d)) :
    ∀ uid ∈ (s.users.filter (fun u => u.team_name == teamName && u.is_active)).map (·.user_id),
      ∀ p ∈ s2.prs, p.status = Status.OPEN → (p.pull_request_id, uid) ∉ s2.pr_reviewers := by
  unfold teamDeactivateHandler at hok
  by_cases ht : (!(teamExists s teamName)) = true
  · rw [if_pos ht] at hok
    exact absurd (congrArg Prod.snd hok) (by simp)
  · rw [if_neg ht] at hok
    simp only at hok
    by_cases hwork : ((s.users.filter (fun u => u.team_name == teamName && u.is_active)).map
        (·.user_id)).any (fun uid => !(openPRsReviewedBy s uid).isEmpty) = true
    · rw [if_pos hwork] at hok
      exact absurd (congrArg Prod.snd hok) (by simp)
    · rw [if_neg hwork] at hok
      injection hok with h1 h2
      subst h1
      intro uid huid p hp hopen hmem
      apply hwork
      rw [List.any_eq_true]
      refine ⟨uid, huid, ?_⟩
      have hp2 : p ∈ s.prs := hp
      have hmem2 : (p.pull_request_id, uid) ∈ s.pr_reviewers := hmem
      have hc : s.pr_reviewers.contains (p.pull_request_id, uid) = true :=
        List.elem_iff.mpr hmem2
      have hin : (p.pull_request_id, p.author_id) ∈ openPRsReviewedBy s uid := by
        unfold openPRsReviewedBy
        refine List.mem_map.mpr ⟨p, List.mem_filter.mpr ⟨hp2, ?_⟩, rfl⟩
        simp [hopen, hc, hmem2]
      have hne : openPRsReviewedBy s uid ≠ [] := List.ne_nil_of_mem hin
      cases hcase : openPRsReviewedBy s uid with
      | nil => exact absurd hcase hne
      | cons a t => rfl

/-- Claim C2 amended: PR creation is not transactional — when a reviewer
insert is rejected, the handler reports an internal error but the PR row it
already inserted remains persisted. -/
theorem C2_create_not_atomic
    (r : Nat → Nat) (fail : String → Bool) (now : Nat) (s : DBState)
    (prId prName authorId : String) (s2 : DBState) (e : ApiError)
    (hex : prExists s.prs prId = false)
    (author : User) (hA : findUser s.users authorId = some author)
    (hres : pullRequestCreateHandler r fail now s prId prName authorId = (s2, .error e)) :
    e = .INTERNAL ∧ (⟨prId, prName, authorId, .OPEN, some now, none⟩ : PRRow) ∈ s2.prs := by
  unfold pullRequestCreateHandler at hres
  rw [if_neg (by simp [hex]), hA] at hres
  simp only at hres
  rcases hout : insertReviewersLoop fail prId
      { teams := s.teams, users := s.users,
        prs := s.prs ++ [⟨prId, prName, authorId, Status.OPEN, some now, none⟩],
        pr_reviewers := s.pr_reviewers }
      (assignReviewers r (getActiveTeamMembers s.users author.team_name authorId) 2)
    with ⟨s3, b⟩
  rw [hout] at hres
  cases b
  · injection hres with h1 h2
    subst h1
    injection h2 with h3
    refine ⟨h3.symm, ?_⟩
    have hp := insertReviewersLoop_prs fail prId
      (assignReviewers r (getActiveTeamMembers s.users author.team_name authorId) 2)
      { teams := s.teams, users := s.users,
        prs := s.prs ++ [⟨prId, prName, authorId, Status.OPEN, some now, none⟩],
        pr_reviewers := s.pr_reviewers }
    rw [hout] at hp
    rw [hp]
    exact List.mem_append_right _ (List.mem_singleton_self _)
  · exact absurd (congrArg Prod.snd hres) (by simp)

/-- Claim C2 counterexample: with the store rejecting the reviewer insert for
`c`, creating `p9` (author `b`, candidate `c`) returns an error yet leaves
the PR row `p9` persisted with zero reviewer links — the state the claim
says cannot exist. -/
theorem C2_counterexample :
    (pullRequestCreateHandler exR exFailC 7 exDB "p9" "n" "b").2
        = Except.error ApiError.INTERNAL ∧
    prExists (pullRequestCreateHandler exR exFailC 7 exDB "p9" "n" "b").1.prs "p9" = true ∧
    getCurrentReviewers (pullRequestCreateHandler exR exFailC 7 exDB "p9" "n" "b").1.pr_reviewers
        "p9" = [] := by decide

/-- Claim C3 amended: a committing mass deactivation reports as
`deactivated_count` the total number of users in the team — active or not —
and ends with exactly the team's members set inactive (so the users whose
flag flips from true to false are exactly the active snapshot). -/
theorem C3_deactivate_count_total_members (s : DBState) (teamName : String)
    (s2 : DBState) (d : DeactivateResult)
    (ht : teamExists s teamName = true)
    (hok : teamDeactivateHandler s teamName = (s2, .ok d)) :
    d.deactivated_count = (s.users.filter (fun u => u.team_name == teamName)).length ∧
    s2.users = s.users.map
      (fun u => if u.team_name == teamName then { u with is_active := false } else u) := by
  unfold teamDeactivateHandler at hok
  rw [if_neg (by simp [ht])] at hok
  simp only at hok
  by_cases hwork : ((s.users.filter (fun u => u.team_name == teamName && u.is_active)).map
      (·.user_id)).any (fun uid => !(openPRsReviewedBy s uid).isEmpty) = true
  · rw [if_pos hwork] at hok
    exact absurd (congrArg Prod.snd hok) (by simp)
  · rw [if_neg hwork] at hok
    injection hok with h1 h2
    subst h1
    injection h2 with h3
    subst h3
    exact ⟨rfl, rfl⟩

/-- Claim C3 counterexample: team `t` of `exDB3` has one active member (`u1`)
and one already-inactive member (`u2`); the handler reports
`deactivated_count = 2`, not the snapshot size 1 claimed. -/
theorem C3_counterexample :
    (teamDeactivateHandler exDB3 "t").2 = Except.ok ⟨2, [], []⟩ ∧
    (exDB3.users.filter (fun u => u.team_name == "t" && u.is_active)).length = 1 := by decide

/-! ## Author-invariant preservation -/

theorem create_preserves_authorInv (r : Nat → Nat) (fail : String → Bool) (now : Nat)
    (s : DBState) (prId prName authorId : String)
    (hwf : WF s) (hinv : authorInv s) :
    authorInv (pullRequestCreateHandler r fail now s prId prName authorId).1 := by
  unfold pullRequestCreateHandler
  by_cases hex : prExists s.prs prId = true
  · rw [if_pos hex]; exact hinv
  · rw [if_neg hex]
    rcases hA : findUser s.users authorId with _ | author
    · exact hinv
    · simp only
      rcases hout : insertReviewersLoop fail prId
          { teams := s.teams, users := s.users,
            prs := s.prs ++ [⟨prId, prName, authorId, Status.OPEN, some now, none⟩],
            pr_reviewers := s.pr_reviewers }
          (assignReviewers r (getActiveTeamMembers s.users author.team_name authorId) 2)
        with ⟨s3, b⟩
      have hprs3 : s3.prs = s.prs ++ [⟨prId, prName, authorId, Status.OPEN, some now, none⟩] := by
        have hp := insertReviewersLoop_prs fail prId
          (assignReviewers r (getActiveTeamMembers s.users author.team_name authorId) 2)
          { teams := s.teams, users := s.users,
            prs := s.prs ++ [⟨prId, prName, authorId, Status.OPEN, some now, none⟩],
            pr_reviewers := s.pr_reviewers }
        rw [hout] at hp
        exact hp
      have hlinks3 := insertReviewersLoop_links fail prId
        (assignReviewers r (getActiveTeamMembers s.users author.team_name authorId) 2)
        { teams := s.teams, users := s.users,
          prs := s.prs ++ [⟨prId, prName, authorId, Status.OPEN, some now, none⟩],
          pr_reviewers := s.pr_reviewers }
      rw [hout] at hlinks3
      have hnotin : ∀ p ∈ s.prs, p.pull_request_id ≠ prId := by
        intro p hp hpid
        exact hex ((prExists_iff s.prs prId).mpr ⟨p, hp, hpid⟩)
      have hkey : authorInv s3 := by
        intro p hp l hl heq
        rw [hprs3] at hp
        rcases List.mem_append.mp hp with hp2 | hp2
        · rcases hlinks3 l hl with hl2 | hl2
          · exact hinv p hp2 l hl2 heq
          · intro _
            exact hnotin p hp2 (by rw [← heq, hl2.1])
        · have hpnew := List.mem_singleton.mp hp2
          rcases hlinks3 l hl with hl2 | hl2
          · exfalso
            rcases hwf.2 l hl2 with ⟨q, hq, hqid⟩
            exact hnotin q hq (by rw [hqid, heq, hpnew])
          · have hmem := assignReviewers_subset r _ 2 l.2 hl2.2
            rcases mem_getActiveTeamMembers s.users author.team_name authorId l.2 hmem
              with ⟨u, hu2, hid, hteam, hact, hne⟩
            rw [hpnew]
            exact hne
      cases b
      · exact hkey
      · exact hkey

theorem reassign_preserves_authorInv (rsel : Nat) (s : DBState) (prId oldUserId : String)
    (hwf : WF s) (hinv : authorInv s) :
    authorInv (pullRequestReassignHandler rsel s prId oldUserId).1 := by
  rcases hfind : findPR s.prs prId with _ | row
  · simp only [pullRequestReassignHandler, hfind]
    exact hinv
  · by_cases hm : row.status = Status.MERGED
    · simp only [pullRequestReassignHandler, hfind, if_pos hm]
      exact hinv
    · by_cases hna : (!(s.pr_reviewers.contains (prId, oldUserId))) = true
      · simp only [pullRequestReassignHandler, hfind, if_neg hm, if_pos hna]
        exact hinv
      · rcases hu : findUser s.users oldUserId with _ | oldReviewer
        · simp only [pullRequestReassignHandler, hfind, if_neg hm, if_neg hna, hu]
          exact hinv
        · by_cases hlen : (getActiveTeamMembersExcluding s.users oldReviewer.team_name
              (getCurrentReviewers s.pr_reviewers prId ++ [row.author_id])).length = 0
          · simp only [pullRequestReassignHandler, hfind, if_neg hm, if_neg hna, hu, if_pos hlen]
            exact hinv
          · rcases hsel : selectRandomCandidate rsel
                (getActiveTeamMembersExcluding s.users oldReviewer.team_name
                  (getCurrentReviewers s.pr_reviewers prId ++ [row.author_id])) with e | x
            · simp only [pullRequestReassignHandler, hfind, if_neg hm, if_neg hna, hu,
                if_neg hlen, hsel]
              exact hinv
            · simp only [pullRequestReassignHandler, hfind, if_neg hm, if_neg hna, hu,
                if_neg hlen, hsel]
              intro p hp l hl heq
              rcases List.mem_map.mp hl with ⟨l0, hl0, hfl⟩
              by_cases hcase : l0 = (prId, oldUserId)
              · rw [if_pos hcase] at hfl
                subst hfl
                have hmem := selectRandomCandidate_mem rsel _ x hsel
                rcases mem_getActiveTeamMembersExcluding s.users oldReviewer.team_name
                    (getCurrentReviewers s.pr_reviewers prId ++ [row.author_id]) x
                    (by simp) hmem with ⟨u, hu2, hid, hteam, hact, hnotmem⟩
                have hpq : p = row := findPR_unique s.prs prId row p hwf.1 hfind hp heq.symm
                intro hcontra
                have hx2 : x = p.author_id := hcontra
                apply hnotmem
                refine List.mem_append.mpr (Or.inr ?_)
                rw [hx2, hpq]
                exact List.mem_singleton_self _
              · rw [if_neg hcase] at hfl
                subst hfl
                exact hinv p hp l0 hl0 heq

theorem deactivate_preserves_authorInv (s : DBState) (teamName : String)
    (_hwf : WF s) (hinv : authorInv s) :
    authorInv (teamDeactivateHandler s teamName).1 := by
  unfold teamDeactivateHandler
  by_cases ht : (!(teamExists s teamName)) = true
  · rw [if_pos ht]
    exact hinv
  · rw [if_neg ht]
    simp only
    by_cases hwork : ((s.users.filter (fun u => u.team_name == teamName && u.is_active)).map
        (·.user_id)).any (fun uid => !(openPRsReviewedBy s uid).isEmpty) = true
    · rw [if_pos hwork]
      exact hinv
    · rw [if_neg hwork]
      exact hinv

/-- Claim C5: from any well-formed state in which no PR's author reviews their
own PR, each of the three reviewer-mutating operations — creation-time
assignment, single reassignment, and the mass-deactivation cascade —
preserves that invariant. -/
theorem C5_author_never_reviewer (s : DBState) (hwf : WF s) (hinv : authorInv s) :
    (∀ (r : Nat → Nat) (fail : String → Bool) (now : Nat) (prId prName authorId : String),
        authorInv (pullRequestCreateHandler r fail now s prId prName authorId).1) ∧
    (∀ (rsel : Nat) (prId oldUserId : String),
        authorInv (pullRequestReassignHandler rsel s prId oldUserId).1) ∧
    (∀ teamName : String, authorInv (teamDeactivateHandler s teamName).1) :=
  ⟨fun r fail now prId prName authorId =>
      create_preserves_authorInv r fail now s prId prName authorId hwf hinv,
    fun rsel prId oldUserId => reassign_preserves_authorInv rsel s prId oldUserId hwf hinv,
    fun teamName => deactivate_preserves_authorInv s teamName hwf hinv⟩

/-! ## Concrete witnesses for the hypothesis-bearing theorems -/

theorem C1_witness :
    ("p1", "b") ∉ (teamDeactivateHandler exDB1 "t").1.pr_reviewers :=
  C1_no_deactivated_reviewer_on_open_pr exDB1 "t" (teamDeactivateHandler exDB1 "t").1
    ⟨2, [], []⟩ (by decide) "b" (by decide)
    ⟨"p1", "feat", "c", Status.OPEN, some 0, none⟩ (by decide) (by decide)

theorem C2_witness :
    prExists exDB.prs "p9" = false ∧
    findUser exDB.users "b" = some ⟨"b", "Bob", "t", true⟩ ∧
    (ApiError.INTERNAL = ApiError.INTERNAL ∧
      (⟨"p9", "n", "b", Status.OPEN, some 7, none⟩ : PRRow)
        ∈ (pullRequestCreateHandler exR exFailC 7 exDB "p9" "n" "b").1.prs) :=
  ⟨by decide, by decide,
    C2_create_not_atomic exR exFailC 7 exDB "p9" "n" "b"
      (pullRequestCreateHandler exR exFailC 7 exDB "p9" "n" "b").1 ApiError.INTERNAL
      (by decide) ⟨"b", "Bob", "t", true⟩ (by decide) (by decide)⟩

theorem C3_witness :
    teamExists exDB3 "t" = true ∧
    ((⟨2, [], []⟩ : DeactivateResult).deactivated_count
        = (exDB3.users.filter (fun u => u.team_name == "t")).length ∧
      (teamDeactivateHandler exDB3 "t").1.users
        = exDB3.users.map
            (fun u => if u.team_name == "t" then { u with is_active := false } else u)) :=
  ⟨by decide,
    C3_deactivate_count_total_members exDB3 "t" (teamDeactivateHandler exDB3 "t").1 ⟨2, [], []⟩
      (by decide) (by decide)⟩

theorem C4_witness :
    findUser exDB.users "b" = some ⟨"b", "Bob", "t", true⟩ ∧
    (⟨"p9", "n", "b", Status.OPEN, ["c"], some 7, none⟩ : PullRequest).assigned_reviewers.length
      = min 2 (getActiveTeamMembers exDB.users "t" "b").length :=
  ⟨by decide,
    C4_create_reviewer_count exR exNoFail 7 exDB "p9" "n" "b"
      (pullRequestCreateHandler exR exNoFail 7 exDB "p9" "n" "b").1
      ⟨"p9", "n", "b", Status.OPEN, ["c"], some 7, none⟩
      ⟨"b", "Bob", "t", true⟩ (by decide) (by decide)⟩

theorem C5_witness :
    WF exDB ∧ authorInv exDB ∧
      authorInv (pullRequestReassignHandler 0 exDB "p1" "c").1 :=
  ⟨by decide, by decide,
    (C5_author_never_reviewer exDB (by decide) (by decide)).2.1 0 "p1" "c"⟩

theorem C6_witness :
    findPR exDB.prs "p2" = some ⟨"p2", "fix", "a", Status.MERGED, some 0, some 5⟩ ∧
    (pullRequestMergeHandler 9 exDB "p2" = (exDB, .ok (getPullRequest exDB "p2")) ∧
      ∃ pr0, getPullRequest exDB "p2" = some pr0 ∧
        pr0.merged_at = (⟨"p2", "fix", "a", Status.MERGED, some 0, some 5⟩ : PRRow).merged_at ∧
        pr0.status = Status.MERGED) :=
  ⟨by decide,
    (C6_merge_idempotent 9 11 exDB "p2").1 ⟨"p2", "fix", "a", Status.MERGED, some 0, some 5⟩
      (by decide) (by decide)⟩

theorem C7_witness :
    pullRequestReassignHandler 0 exDB "p2" "b" = (exDB, .error .PR_MERGED) :=
  C7_reassign_merged_no_mutation 0 exDB "p2" "b"
    ⟨"p2", "fix", "a", Status.MERGED, some 0, some 5⟩ (by decide) (by decide)

theorem C8_witness :
    ∃ row oldReviewer, findPR exDB.prs "p1" = some row ∧
      findUser exDB.users "c" = some oldReviewer ∧
      (∃ u ∈ exDB.users, u.user_id = "b" ∧ u.team_name = oldReviewer.team_name ∧
        u.is_active = true) ∧
      "b" ≠ row.author_id ∧ "b" ∉ getCurrentReviewers exDB.pr_reviewers "p1" ∧
      ("b" : String) ≠ "c" :=
  C8_reassign_replacement_properties 0 exDB "p1" "c"
    (pullRequestReassignHandler 0 exDB "p1" "c").1
    (getPullRequest (pullRequestReassignHandler 0 exDB "p1" "c").1 "p1") "b" (by decide)

theorem C9_witness :
    pullRequestReassignHandler 0 exDB9 "p1" "c" = (exDB9, .error .NO_CANDIDATE) :=
  C9_reassign_no_candidate_no_mutation 0 exDB9 "p1" "c"
    ⟨"p1", "feat", "a", Status.OPEN, some 0, none⟩ ⟨"c", "Cid", "t", true⟩
    (by decide) (by decide) (by decide) (by decide) (by decide)

theorem C10_witness :
    (∃ x, selectRandomCandidate 0 ["c"] = .ok x ∧ x ∈ ["c"]) ∧
    (pullRequestReassignHandler 0 exDB "p1" "c").2 ≠ Except.error ApiError.INTERNAL :=
  ⟨C10_select_total_on_nonempty.1 0 ["c"] (by decide),
    C10_select_total_on_nonempty.2 0 exDB "p1" "c" ⟨"c", "Cid", "t", true⟩ (by decide)⟩

end PRService
